import Mathlib

/-!
Verification of the response-extraction-and-reconciliation pipeline of the
paco repository (src/app/ai.py and src/app/database.py).

Strings are modelled as lists of characters.  The Python regular
expressions of ai.py are modelled by a small backtracking matcher with
Python semantics (leftmost match, lazy and greedy quantifiers, capture
groups, DOTALL so that the dot matches every character).  The SQLite store
of database.py is modelled as explicit record lists, with SQL LIKE
matching (ASCII case folding, wildcard characters) implemented directly.
Prices are modelled as exact canonical decimals: the modelled code only
parses, stores and compares them, it never computes with them, so no
binary-float rounding is observable in the claims under study.
-/

set_option maxRecDepth 10000

abbrev Str := List Char

/-- Coerce a Lean string literal to the character-list representation. -/
def str (s : String) : Str := s.data

/-- Whitespace class of Python regular expressions, restricted to the ASCII
whitespace characters (the only ones appearing in the modelled texts). -/
def isREWhite (c : Char) : Bool :=
  c == ' ' || c == '\t' || c == '\n' || c == '\r' || c == '\x0b' || c == '\x0c'

/-- Whitespace set of Python str.strip and str.split, restricted to ASCII. -/
def pyIsSpace (c : Char) : Bool := isREWhite c

/-- Python str.strip(): remove leading and trailing whitespace. -/
def pyStrip (s : Str) : Str :=
  ((s.dropWhile pyIsSpace).reverse.dropWhile pyIsSpace).reverse

/-- Python str.split(sep) for a single-character separator. -/
def splitOnChar (c : Char) : Str → List Str
  | [] => [[]]
  | d :: rest =>
    let r := splitOnChar c rest
    if d = c then [] :: r
    else
      match r with
      | [] => [[d]]
      | h :: t => (d :: h) :: t

def pySplitGo : Nat → Str → List Str
  | 0, _ => []
  | fuel + 1, s =>
    let s1 := s.dropWhile pyIsSpace
    match s1 with
    | [] => []
    | _ :: _ =>
      s1.takeWhile (fun c => !pyIsSpace c) ::
        pySplitGo fuel (s1.dropWhile (fun c => !pyIsSpace c))

/-- Python str.split() with no argument: split on whitespace runs,
discarding empty words. -/
def pySplit (s : Str) : List Str := pySplitGo (s.length + 1) s

/-- Join a list of words with single spaces, as Python " ".join(words). -/
def joinWords : List Str → Str
  | [] => []
  | [w] => w
  | w :: ws => w ++ (' ' :: joinWords ws)

/-- Does the first list stand at the head of the second one? -/
def isLeadOf : Str → Str → Bool
  | [], _ => true
  | _ :: _, [] => false
  | c :: p, d :: s => c == d && isLeadOf p s

/-- Python substring containment (the "in" operator on strings). -/
def containsStr (needle hay : Str) : Bool :=
  (List.range (hay.length + 1)).any (fun i => isLeadOf needle (hay.drop i))

/-- SQLite lower(): folds only the ASCII uppercase letters. -/
def sqliteLowerChar (c : Char) : Char :=
  if 65 ≤ c.toNat ∧ c.toNat ≤ 90 then Char.ofNat (c.toNat + 32) else c

def sqliteLower (s : Str) : Str := s.map sqliteLowerChar

/-- Python str.lower() restricted to ASCII letters and the Latin-1
uppercase letters (the alphabet used by this repository's strings). -/
def pyLowerChar (c : Char) : Char :=
  if 65 ≤ c.toNat ∧ c.toNat ≤ 90 then Char.ofNat (c.toNat + 32)
  else if 192 ≤ c.toNat ∧ c.toNat ≤ 222 ∧ c.toNat ≠ 215 then Char.ofNat (c.toNat + 32)
  else c

def pyLower (s : Str) : Str := s.map pyLowerChar

/-- One layer of SQL LIKE matching, structurally recursive on the pattern;
recS resolves the calls that consume a character of the value. -/
def likeP (recS : Str → Str → Bool) : Str → Str → Bool
  | [], s => s.isEmpty
  | c :: p, s =>
    if c = '%' then
      likeP recS p s ||
        (match s with
         | [] => false
         | _ :: s' => recS (c :: p) s')
    else
      match s with
      | [] => false
      | c' :: s' => (if c = '_' then true else c == c') && recS p s'

def likeS : Str → Str → Bool
  | [], p => likeP (fun _ _ => false) p []
  | c :: srest, p => likeP (fun p' _ => likeS srest p') p (c :: srest)

/-- SQL LIKE wildcard matching on already-folded strings: the percent sign
matches any run of characters and the underscore any single character. -/
def likeMatch (p s : Str) : Bool := likeS s p

/-- SQLite default LIKE: ASCII-case-insensitive wildcard matching of the
value against the pattern (the queries of database.py additionally wrap
both sides in lower(), which is absorbed by the same fold). -/
def sqlLike (v pat : Str) : Bool := likeMatch (sqliteLower pat) (sqliteLower v)

/-! Regular-expression matcher.

The abstract syntax covers exactly the constructs used by ai.py: literal
characters (cls with an equality test), character classes, sequencing,
prioritised alternation (the left branch is preferred, as in Python),
capture groups, the lazy star (used for the lazy plus of the patterns) and
the greedy star.  The matcher is a continuation-passing backtracking
matcher; fuel is consumed only when a star unfolds, and every star body in
the modelled patterns consumes at least one character per iteration, so
fuel equal to the input length plus one reproduces Python's behaviour
exactly. -/

inductive RE where
  | eps : RE
  | cls (p : Char → Bool) : RE
  | seq (a b : RE) : RE
  | alt (a b : RE) : RE
  | grp (n : Nat) (a : RE) : RE
  | starL (a : RE) : RE
  | starG (a : RE) : RE

/-- Capture list: group index with start and end positions; the most
recent entry for a group wins, as in Python. -/
abbrev Caps := List (Nat × Nat × Nat)

/-- One fuel layer of the matcher, structurally recursive on the pattern;
rec resolves star unfoldings at the next-smaller fuel. -/
def mstep (rec : RE → Str → Nat → Caps →
    (Str → Nat → Caps → Option (Nat × Caps)) → Option (Nat × Caps)) :
    RE → Str → Nat → Caps →
    (Str → Nat → Caps → Option (Nat × Caps)) → Option (Nat × Caps)
  | .eps, s, pos, caps, k => k s pos caps
  | .cls p, s, pos, caps, k =>
    match s with
    | [] => none
    | c :: s' => if p c then k s' (pos + 1) caps else none
  | .seq a b, s, pos, caps, k =>
    mstep rec a s pos caps (fun s' pos' caps' => mstep rec b s' pos' caps' k)
  | .alt a b, s, pos, caps, k =>
    match mstep rec a s pos caps k with
    | some r => some r
    | none => mstep rec b s pos caps k
  | .grp n a, s, pos, caps, k =>
    mstep rec a s pos caps (fun s' pos' caps' => k s' pos' ((n, pos, pos') :: caps'))
  | .starL a, s, pos, caps, k =>
    match k s pos caps with
    | some r => some r
    | none =>
      rec a s pos caps (fun s' pos' caps' => rec (.starL a) s' pos' caps' k)
  | .starG a, s, pos, caps, k =>
    match rec a s pos caps (fun s' pos' caps' => rec (.starG a) s' pos' caps' k) with
    | some r => some r
    | none => k s pos caps

def mmatch : Nat → RE → Str → Nat → Caps →
    (Str → Nat → Caps → Option (Nat × Caps)) → Option (Nat × Caps)
  | 0 => mstep (fun _ _ _ _ _ => none)
  | fuel + 1 => mstep (mmatch fuel)

/-- Try to match the pattern at a fixed position of the text; returns the
end position and captures of the first (Python-priority) match. -/
def matchAt (r : RE) (text : Str) (pos : Nat) : Option (Nat × Caps) :=
  mmatch (text.length + 1) r (text.drop pos) pos [] (fun _ p c => some (p, c))

def findIterGo (r : RE) (text : Str) : Nat → Nat → List Caps
  | 0, _ => []
  | fuel + 1, pos =>
    if pos > text.length then []
    else
      match matchAt r text pos with
      | some (e, caps) => caps :: findIterGo r text fuel (if pos < e then e else pos + 1)
      | none => findIterGo r text fuel (pos + 1)

/-- Python re.finditer: non-overlapping matches scanned left to right. -/
def findIter (r : RE) (text : Str) : List Caps :=
  findIterGo r text (text.length + 2) 0

def reSearchGo (r : RE) (text : Str) : Nat → Nat → Option Caps
  | 0, _ => none
  | fuel + 1, pos =>
    if pos > text.length then none
    else
      match matchAt r text pos with
      | some (_, caps) => some caps
      | none => reSearchGo r text fuel (pos + 1)

/-- Python re.search: the leftmost match, if any. -/
def reSearch (r : RE) (text : Str) : Option Caps :=
  reSearchGo r text (text.length + 2) 0

def capSpan (caps : Caps) (n : Nat) : Option (Nat × Nat) :=
  (caps.find? (fun t => t.1 == n)).map (fun t => t.2)

/-- Python match.group(n): the captured text, or none when the group did
not participate in the match. -/
def pyGroup (text : Str) (caps : Caps) (n : Nat) : Option Str :=
  (capSpan caps n).map (fun se => (text.drop se.1).take (se.2 - se.1))

/-! The four tag patterns of ai.py, transcribed construct by construct. -/

def reChar (c : Char) : RE := .cls (fun d => d == c)

def reStr (s : Str) : RE := s.foldr (fun c r => .seq (reChar c) r) .eps

def anyCh : RE := .cls (fun _ => true)

/-- Lazy plus over the DOTALL dot, as in the pattern piece (.+?). -/
def lazyPlus : RE := .seq anyCh (.starL anyCh)

def wsStar : RE := .starG (.cls isREWhite)

def reOpt (r : RE) : RE := .alt r .eps

def digitDot : RE := .cls (fun c => c.isDigit || c == '.')

/-- Greedy plus over the class of digits and dots, the piece ([0-9.]+). -/
def numPlus : RE := .seq digitDot (.starG digitDot)

def seqList (l : List RE) : RE := l.foldr .seq .eps

/-- ai.py line 163, client_pattern. -/
def client_pattern : RE :=
  seqList [reStr (str "[CLIENTE NUEVO]"), wsStar, reStr (str "Nombre:"), wsStar,
    .grp 1 lazyPlus, wsStar,
    reOpt (seqList [reStr (str "Teléfono:"), wsStar, .grp 2 lazyPlus, wsStar]),
    reOpt (seqList [reStr (str "Dirección:"), wsStar, .grp 3 lazyPlus, wsStar]),
    reOpt (seqList [reStr (str "Notas:"), wsStar, .grp 4 lazyPlus, wsStar]),
    reStr (str "[FIN CLIENTE]")]

/-- ai.py line 173, client_msg_pattern. -/
def client_msg_pattern : RE :=
  seqList [reStr (str "[MENSAJE PARA CLIENTE: "), .grp 1 lazyPlus, reChar ']',
    wsStar, .grp 2 lazyPlus, wsStar, reStr (str "[FIN MENSAJE]")]

/-- ai.py line 183, service_pattern. -/
def service_pattern : RE :=
  seqList [reStr (str "[SERVICIO REGISTRADO]"), wsStar, reStr (str "Cliente: "),
    .grp 1 lazyPlus, wsStar, reStr (str "Servicio: "), .grp 2 lazyPlus, wsStar,
    reStr (str "Precio: "), reOpt (reChar '$'), .grp 3 numPlus, wsStar,
    reStr (str "[FIN SERVICIO]")]

/-- ai.py line 192, proposal_pattern. -/
def proposal_pattern : RE :=
  seqList [reStr (str "[PROPUESTA]"), wsStar, reStr (str "Cliente:"), wsStar,
    .grp 1 lazyPlus, wsStar, reStr (str "Servicios:"), wsStar, .grp 2 lazyPlus,
    wsStar, reStr (str "Total:"), wsStar, reOpt (reChar '$'), .grp 3 numPlus,
    wsStar, reOpt (seqList [reStr (str "Notas:"), wsStar, .grp 4 lazyPlus, wsStar]),
    reStr (str "[FIN PROPUESTA]")]

/-- ai.py line 203, the inner price search pattern of proposal line items. -/
def price_search_pattern : RE := .seq (reOpt (reChar '$')) (.grp 1 numPlus)

/-! Python float() on the digit-and-dot strings produced by the patterns:
it succeeds exactly when the string holds at least one digit and at most
one dot, and raises ValueError otherwise. -/

inductive PyErr where
  | valueError (s : Str) : PyErr
deriving DecidableEq

def validFloatChars (s : Str) : Bool :=
  s.count '.' ≤ 1 && s.any (fun c => c.isDigit)

def digitsVal (s : Str) : Nat := s.foldl (fun acc c => acc * 10 + (c.toNat - 48)) 0

/-- The exact nonnegative decimal value mant / 10 ^ scale, kept with the
least possible scale so that equal values have equal representations.
This stands in for the Python floats of the modelled code, which only
parses, stores and compares them (all the literals in play are far below
the precision at which distinct decimals collapse to one binary float). -/
structure PyFloat where
  mant : Nat
  scale : Nat
deriving DecidableEq

/-- Canonicalise a decimal mantissa and scale by removing trailing zeros. -/
def pyCanon : Nat → Nat → PyFloat
  | m, 0 => ⟨m, 0⟩
  | m, k + 1 => if m % 10 = 0 then pyCanon (m / 10) k else ⟨m, k + 1⟩

/-- A whole-number float literal. -/
def pf (m : Nat) : PyFloat := ⟨m, 0⟩

/-- Python float() restricted to strings drawn from the class [0-9.]+. -/
def pyFloat (s : Str) : Except PyErr PyFloat :=
  if validFloatChars s then
    let ip := s.takeWhile (fun c => c != '.')
    let fp := (s.dropWhile (fun c => c != '.')).drop 1
    .ok (pyCanon (digitsVal ip * 10 ^ fp.length + digitsVal fp) fp.length)
  else .error (.valueError s)

/-! The transient candidate records of process_response. -/

structure NewClientCand where
  name : Str
  phone : Option Str
  address : Option Str
  notes : Option Str
deriving DecidableEq

structure ClientMsgCand where
  client_name : Str
  message : Str
deriving DecidableEq

structure ServiceCand where
  client_name : Str
  description : Str
  price : PyFloat
deriving DecidableEq

structure PropService where
  description : Str
  price : PyFloat
deriving DecidableEq

structure ProposalCand where
  client_name : Str
  services : List PropService
  total : PyFloat
  notes : Option Str
deriving DecidableEq

structure ExtractionResult where
  text : Str
  client_messages : List ClientMsgCand
  services : List ServiceCand
  new_clients : List NewClientCand
  proposals : List ProposalCand
deriving DecidableEq

deriving instance DecidableEq for Except

def groupOrEmpty (t : Str) (caps : Caps) (n : Nat) : Str := (pyGroup t caps n).getD []

/-- Python "match.group(n).strip() if match.group(n) else None": a missing
or empty capture yields None. -/
def optGroupStripped (t : Str) (caps : Caps) (n : Nat) : Option Str :=
  match pyGroup t caps n with
  | some g => if g ≠ [] then some (pyStrip g) else none
  | none => none

def exMapM : List α → (α → Except PyErr β) → Except PyErr (List β)
  | [], _ => .ok []
  | x :: xs, f =>
    match f x with
    | .error e => .error e
    | .ok y =>
      match exMapM xs f with
      | .error e => .error e
      | .ok ys => .ok (y :: ys)

/-- One line of the Servicios block of a proposal (ai.py lines 197-208):
lines not of the dash-colon-number shape are skipped; a price text that
float() rejects raises. -/
def parsePropLine (line : Str) : Except PyErr (Option PropService) :=
  let line := pyStrip line
  if line.take 1 = ['-'] then
    let parts := splitOnChar ':' (pyStrip (line.drop 1))
    if parts.length ≥ 2 then
      let svc_name := pyStrip (parts.getD 0 [])
      match reSearch price_search_pattern (parts.getD 1 []) with
      | some caps =>
        match pyFloat (groupOrEmpty (parts.getD 1 []) caps 1) with
        | .error e => .error e
        | .ok v => .ok (some ⟨svc_name, v⟩)
      | none => .ok none
    else .ok none
  else .ok none

def parsePropLines : List Str → Except PyErr (List PropService)
  | [] => .ok []
  | l :: ls =>
    match parsePropLine l with
    | .error e => .error e
    | .ok none => parsePropLines ls
    | .ok (some svc) =>
      match parsePropLines ls with
      | .error e => .error e
      | .ok rest => .ok (svc :: rest)

def svcOfCaps (t : Str) (caps : Caps) : Except PyErr ServiceCand :=
  match pyFloat (pyStrip (groupOrEmpty t caps 3)) with
  | .error e => .error e
  | .ok pr => .ok ⟨pyStrip (groupOrEmpty t caps 1), pyStrip (groupOrEmpty t caps 2), pr⟩

def propOfCaps (t : Str) (caps : Caps) : Except PyErr ProposalCand :=
  let services_text := pyStrip (groupOrEmpty t caps 2)
  match parsePropLines (splitOnChar '\n' services_text) with
  | .error e => .error e
  | .ok svcs =>
    match pyFloat (pyStrip (groupOrEmpty t caps 3)) with
    | .error e => .error e
    | .ok tot => .ok ⟨pyStrip (groupOrEmpty t caps 1), svcs, tot, optGroupStripped t caps 4⟩

/-- ai.py lines 152-217, process_response: extract the structured data of
one assistant reply.  The only failure source is Python float() on a
matched price text, which propagates as a ValueError. -/
def process_response (t : Str) : Except PyErr ExtractionResult :=
  let new_clients := (findIter client_pattern t).map (fun caps =>
    { name := pyStrip (groupOrEmpty t caps 1)
      phone := optGroupStripped t caps 2
      address := optGroupStripped t caps 3
      notes := optGroupStripped t caps 4 : NewClientCand })
  let client_messages := (findIter client_msg_pattern t).map (fun caps =>
    { client_name := pyStrip (groupOrEmpty t caps 1)
      message := pyStrip (groupOrEmpty t caps 2) : ClientMsgCand })
  match exMapM (findIter service_pattern t) (svcOfCaps t) with
  | .error e => .error e
  | .ok services =>
    match exMapM (findIter proposal_pattern t) (propOfCaps t) with
    | .error e => .error e
    | .ok proposals =>
      .ok { text := t, client_messages := client_messages, services := services,
            new_clients := new_clients, proposals := proposals }

/-! The record store of database.py, modelled as explicit lists of rows.
Row ids are assigned as list length plus one, matching SQLite rowids in
the delete-free flows under study.  CURRENT_TIMESTAMP is modelled by a
logical clock field now, bumped after every timestamping operation (wall
clock seconds are strictly increasing across the operations of one turn
in the idealised model). -/

structure DBClient where
  id : Nat
  name : Str
  phone : Option Str
  email : Option Str
  address : Option Str
  language : Str
  preferences : Option Str
  maintenance_package : Option Str
  notes : Option Str
deriving DecidableEq

structure DBService where
  id : Nat
  client_id : Nat
  description : Str
  description_es : Option Str
  price : PyFloat
  service_date : Nat
  invoiced : Bool
  invoice_id : Option Nat
  notes : Option Str
deriving DecidableEq

structure DBPrice where
  id : Nat
  service_type : Str
  service_type_es : Option Str
  default_price : PyFloat
  notes : Option Str
  times_used : Nat
deriving DecidableEq

structure DBProposal where
  id : Nat
  client_id : Nat
  proposal_number : Str
  services : List PropService
  subtotal : PyFloat
  total : PyFloat
  notes : Option Str
  status : Str
  valid_until : Nat
deriving DecidableEq

structure DBMessage where
  id : Nat
  client_id : Nat
  direction : Str
  channel : Str
  content : Str
  subject : Option Str
  status : Str
deriving DecidableEq

structure DBSession where
  id : Nat
  title : Str
  client_id : Option Nat
  created_at : Nat
  updated_at : Nat
deriving DecidableEq

structure DBMemory where
  id : Nat
  session_id : Nat
  role : Str
  content : Str
  created_at : Nat
deriving DecidableEq

structure DB where
  clients : List DBClient
  services : List DBService
  price_book : List DBPrice
  proposals : List DBProposal
  client_messages : List DBMessage
  chat_sessions : List DBSession
  conversation_memory : List DBMemory
  now : Nat
deriving DecidableEq

/-- Environment of one chat turn: the current date (as day count) and the
year-month string used in proposal numbers. -/
structure Env where
  today : Nat
  yyyymm : Str
deriving DecidableEq

/-- database.py line 200, get_client_by_name: first client whose lowered
name is LIKE the lowered pattern made of the fragment between percent
signs; the row order of an unordered SELECT is modelled as list order. -/
def get_client_by_name (db : DB) (name : Str) : Option DBClient :=
  db.clients.find? (fun c => sqlLike c.name ('%' :: (name ++ ['%'])))

/-- database.py line 211, create_client. -/
def create_client (db : DB) (name : Str) (phone email address : Option Str)
    (language : Str) (preferences maintenance_package notes : Option Str) :
    DB × Nat :=
  let id := db.clients.length + 1
  ({ db with clients := db.clients ++
      [{ id := id, name := name, phone := phone, email := email, address := address,
         language := language, preferences := preferences,
         maintenance_package := maintenance_package, notes := notes }] }, id)

/-- database.py line 249, add_service; a missing service_date defaults to
today's date. -/
def add_service (env : Env) (db : DB) (client_id : Nat) (description : Str)
    (price : PyFloat) (description_es : Option Str) (service_date : Option Nat)
    (notes : Option Str) : DB × Nat :=
  let id := db.services.length + 1
  ({ db with services := db.services ++
      [{ id := id, client_id := client_id, description := description,
         description_es := description_es, price := price,
         service_date := service_date.getD env.today, invoiced := false,
         invoice_id := none, notes := notes }] }, id)

/-- database.py line 276, get_price: first price-book row whose lowered
service type is LIKE the lowered pattern around the query. -/
def get_price (db : DB) (service_type : Str) : Option DBPrice :=
  db.price_book.find? (fun p => sqlLike p.service_type ('%' :: (service_type ++ ['%'])))

/-- database.py line 287, set_price: update the matching row's price and
bump its usage counter, or insert a fresh row (times_used defaults to 1). -/
def set_price (db : DB) (service_type : Str) (price : PyFloat)
    (service_type_es notes : Option Str) : DB :=
  match get_price db service_type with
  | some existing =>
    { db with price_book := db.price_book.map (fun p =>
        if p.id = existing.id then
          { p with default_price := price, times_used := p.times_used + 1 }
        else p) }
  | none =>
    { db with price_book := db.price_book ++
        [{ id := db.price_book.length + 1, service_type := service_type,
           service_type_es := service_type_es, default_price := price,
           notes := notes, times_used := 1 }] }

/-- Byte-wise (equivalently code-point-wise) string order used by the
BINARY collation of SQLite text columns. -/
def strLeB : Str → Str → Bool
  | [], _ => true
  | _ :: _, [] => false
  | c :: s, d :: t => if c = d then strLeB s t else decide (c.toNat < d.toNat)

def insertByName (c : DBClient) : List DBClient → List DBClient
  | [] => [c]
  | d :: l => if strLeB c.name d.name then c :: d :: l else d :: insertByName c l

def sortByName (l : List DBClient) : List DBClient := l.foldr insertByName []

/-- database.py line 184, get_all_clients: all clients ordered by name. -/
def get_all_clients (db : DB) : List DBClient := sortByName db.clients

/-- database.py line 452, queue_client_message with the default direction,
channel and subject used by the chat reconciliation (status pending). -/
def queue_client_message (db : DB) (client_id : Nat) (content : Str) : DB × Nat :=
  let id := db.client_messages.length + 1
  ({ db with client_messages := db.client_messages ++
      [{ id := id, client_id := client_id, direction := str "outgoing",
         channel := str "sms", content := content, subject := none,
         status := str "pending" }] }, id)

/-- Decimal digits of a natural number, most significant first. -/
def natDigits (n : Nat) : Str := (Nat.toDigits 10 n).map (fun c => c)

/-- Python format specifier 03d: left pad with zeros to width three. -/
def fmt03 (n : Nat) : Str :=
  let d := natDigits n
  List.replicate (3 - d.length) '0' ++ d

/-- database.py line 518, generate_proposal_number: count the proposals
whose number is LIKE the month prefix and append the count plus one. -/
def generate_proposal_number (env : Env) (db : DB) : Str :=
  let pfx := str "PROP-" ++ env.yyyymm
  let existing := db.proposals.countP (fun p => sqlLike p.proposal_number (pfx ++ ['%']))
  pfx ++ ('-' :: fmt03 (existing + 1))

/-- database.py line 532, create_proposal (valid_days defaults to 30);
subtotal and total are both stored as the given total. -/
def create_proposal (env : Env) (db : DB) (client_id : Nat)
    (services : List PropService) (total : PyFloat) (notes : Option Str) : DB × Nat :=
  let number := generate_proposal_number env db
  let id := db.proposals.length + 1
  ({ db with proposals := db.proposals ++
      [{ id := id, client_id := client_id, proposal_number := number,
         services := services, subtotal := total, total := total,
         notes := notes, status := str "draft",
         valid_until := env.today + 30 }] }, id)

/-- Python "title or default": None and the empty string fall back. -/
def orDefaultStr (t : Option Str) (d : Str) : Str :=
  match t with
  | some s => if s ≠ [] then s else d
  | none => d

/-- database.py line 317, create_chat_session. -/
def create_chat_session (db : DB) (title : Option Str) (client_id : Option Nat) :
    DB × Nat :=
  let id := db.chat_sessions.length + 1
  ({ db with chat_sessions := db.chat_sessions ++
              [{ id := id, title := orDefaultStr title (str "Nueva conversacion"),
                 client_id := client_id, created_at := db.now, updated_at := db.now }],
             now := db.now + 1 }, id)

/-- The row of greatest updated_at, as ORDER BY updated_at DESC LIMIT 1;
among equal timestamps SQLite's choice is unspecified and the model keeps
the earliest row. -/
def maxByUpdated (l : List DBSession) : Option DBSession :=
  l.foldl (fun best s =>
    match best with
    | none => some s
    | some b => if s.updated_at > b.updated_at then some s else some b) none

/-- database.py line 377, get_or_create_default_session: the most recently
updated session, or a fresh one when none exists. -/
def get_or_create_default_session (db : DB) : DB × Nat :=
  match maxByUpdated db.chat_sessions with
  | some s => (db, s.id)
  | none => create_chat_session db none none

/-- database.py line 391, add_message: a missing session id falls back to
the default session; the insert and the session timestamp bump share one
CURRENT_TIMESTAMP. -/
def add_message (db : DB) (role content : Str) (session_id : Option Nat) :
    DB × Nat :=
  let resolved : DB × Nat := match session_id with
    | some i => (db, i)
    | none => get_or_create_default_session db
  let db1 : DB := resolved.1
  let sid : Nat := resolved.2
  let db2 : DB := { db1 with conversation_memory := db1.conversation_memory ++
      [{ id := db1.conversation_memory.length + 1, session_id := sid,
         role := role, content := content, created_at := db1.now }] }
  ({ db2 with chat_sessions := db2.chat_sessions.map (fun s =>
                if s.id = sid then { s with updated_at := db2.now } else s),
              now := db2.now + 1 }, sid)

/-! Reconciliation: the four candidate loops of chat(), ai.py lines
261-298, applied in source order. -/

/-- ai.py lines 262-271: create each new client unless the fuzzy name
lookup already finds one. -/
def applyNewClients (db : DB) (l : List NewClientCand) : DB :=
  l.foldl (fun db nc =>
    match get_client_by_name db nc.name with
    | some _ => db
    | none =>
      (create_client db nc.name nc.phone none nc.address (str "en")
        none none nc.notes).1) db

/-- ai.py lines 274-277: queue each client message whose client resolves;
unresolved messages are dropped. -/
def applyClientMessages (db : DB) (l : List ClientMsgCand) : DB :=
  l.foldl (fun db cm =>
    match get_client_by_name db cm.client_name with
    | some c => (queue_client_message db c.id cm.message).1
    | none => db) db

/-- ai.py lines 280-284: for each resolvable service candidate, add the
service row then upsert the price book. -/
def applyServices (env : Env) (db : DB) (l : List ServiceCand) : DB :=
  l.foldl (fun db svc =>
    match get_client_by_name db svc.client_name with
    | some c =>
      set_price (add_service env db c.id svc.description svc.price none none none).1
        svc.description svc.price none none
    | none => db) db

/-- ai.py lines 287-298: persist each resolvable proposal candidate. -/
def applyProposals (env : Env) (db : DB) (l : List ProposalCand) : DB :=
  l.foldl (fun db prop =>
    match get_client_by_name db prop.client_name with
    | some c => (create_proposal env db c.id prop.services prop.total prop.notes).1
    | none => db) db

/-- The reconciliation pass of chat(): the four loops in source order. -/
def reconcile (env : Env) (db : DB) (r : ExtractionResult) : DB :=
  applyProposals env
    (applyServices env
      (applyClientMessages
        (applyNewClients db r.new_clients) r.client_messages) r.services) r.proposals

/-- The two conversation writes of chat(): ai.py line 227 saves the user
turn with the session id, line 255 saves the assistant turn without one. -/
def chatAppendPhase (db : DB) (session_id : Nat) (user_message assistant_message : Str) : DB :=
  let db1 := (add_message db (str "jaime") user_message (some session_id)).1
  (add_message db1 (str "assistant") assistant_message none).1

/-! Session titler, ai.py lines 308-353.  The early-return chain of the
source is rendered as a cascade of helpers, one per priority level. -/

/-- Priority 5 loop body and priority 6 fallback (ai.py lines 335-353). -/
def titleFromMention (clients : List DBClient) (message_lower : Str) : Option Str :=
  clients.findSome? (fun c =>
    if containsStr (pyLower c.name) message_lower then some (str "Chat: " ++ c.name)
    else none)

def titlePreview (user_message : Str) : Option Str :=
  let words := (pySplit user_message).take 5
  let preview := joinWords words
  let preview := if user_message.length > preview.length then preview ++ str "..." else preview
  if preview ≠ [] ∧ preview ≠ str "Nueva conversacion" then some preview else none

def gst5 (db : DB) (user_message : Str) : Option Str :=
  let message_lower := pyLower user_message
  match titleFromMention (get_all_clients db) message_lower with
  | some t => some t
  | none => titlePreview user_message

def gst4 (db : DB) (user_message : Str) (processed : ExtractionResult) : Option Str :=
  match processed.services with
  | svc :: _ =>
    if svc.client_name ≠ [] then some (str "Servicio: " ++ svc.client_name)
    else gst5 db user_message
  | [] => gst5 db user_message

def gst3 (db : DB) (user_message : Str) (processed : ExtractionResult) : Option Str :=
  match processed.client_messages with
  | cm :: _ =>
    if cm.client_name ≠ [] then some (str "Mensaje: " ++ cm.client_name)
    else gst4 db user_message processed
  | [] => gst4 db user_message processed

def gst2 (db : DB) (user_message : Str) (processed : ExtractionResult) : Option Str :=
  match processed.proposals with
  | p :: _ =>
    if p.client_name ≠ [] then some (str "Propuesta: " ++ p.client_name)
    else gst3 db user_message processed
  | [] => gst3 db user_message processed

/-- ai.py line 308, generate_session_title. -/
def generate_session_title (db : DB) (user_message : Str)
    (processed : ExtractionResult) : Option Str :=
  match processed.new_clients with
  | nc :: _ => some (str "Cliente: " ++ nc.name)
  | [] => gst2 db user_message processed

/-- An empty store with the clock started at 1. -/
def emptyDB : DB :=
  { clients := [], services := [], price_book := [], proposals := [],
    client_messages := [], chat_sessions := [], conversation_memory := [], now := 1 }

/-! Helper constructors for extraction results holding one candidate, and
the concrete inputs used by the scenario theorems and witnesses. -/

def emptyExtraction (t : Str) : ExtractionResult :=
  { text := t, client_messages := [], services := [], new_clients := [], proposals := [] }

def soloNewClient (nc : NewClientCand) : ExtractionResult :=
  { text := [], client_messages := [], services := [], new_clients := [nc], proposals := [] }

def soloClientMessage (cm : ClientMsgCand) : ExtractionResult :=
  { text := [], client_messages := [cm], services := [], new_clients := [], proposals := [] }

def soloService (svc : ServiceCand) : ExtractionResult :=
  { text := [], client_messages := [], services := [svc], new_clients := [], proposals := [] }

def soloProposal (p : ProposalCand) : ExtractionResult :=
  { text := [], client_messages := [], services := [], new_clients := [], proposals := [p] }

def envT : Env := { today := 20000, yyyymm := str "202510" }

def tA : Str := str "[CLIENTE NUEVO]\nNombre: Maria Lopez\nTeléfono: 555-1234\n[FIN CLIENTE]"

def tJuan : Str := str "[CLIENTE NUEVO]\nNombre: Juan\n[FIN CLIENTE]"

def tAna : Str := str "[CLIENTE NUEVO]\nNombre: Ana\nTeléfono: 1\nNotas: x\n[FIN CLIENTE]"

def tNoName : Str := str "[CLIENTE NUEVO]\nTeléfono: 555\n[FIN CLIENTE]"

def tC : Str :=
  str "[PROPUESTA]\nCliente: Maria\nServicios:\n- Corte de pasto: $50\n- Fertilización: $30\nTotal: $80\n[FIN PROPUESTA]"

def tErr : Str :=
  str "[SERVICIO REGISTRADO]\nCliente: A\nServicio: B\nPrecio: $1.2.3\n[FIN SERVICIO]"

def tCBad : Str :=
  str "[PROPUESTA]\nCliente: Maria\nServicios:\n- Corte de pasto: $50\n- Fertilización: $30\nTotal: $999\n[FIN PROPUESTA]"

def propMariaBad : ProposalCand :=
  { client_name := str "Maria",
    services := [{ description := str "Corte de pasto", price := pf 50 },
                 { description := str "Fertilización", price := pf 30 }],
    total := pf 999, notes := none }

def ncMaria : NewClientCand :=
  { name := str "Maria Lopez", phone := some (str "555-1234"), address := none, notes := none }

def clientMaria : DBClient :=
  { id := 1, name := str "Maria Lopez", phone := some (str "555-1234"), email := none,
    address := none, language := str "en", preferences := none,
    maintenance_package := none, notes := none }

def dbMaria : DB := { emptyDB with clients := [clientMaria] }

def svcPoda : ServiceCand :=
  { client_name := str "Maria", description := str "Poda de árbol", price := pf 150 }

def propMaria : ProposalCand :=
  { client_name := str "Maria",
    services := [{ description := str "Corte de pasto", price := pf 50 },
                 { description := str "Fertilización", price := pf 30 }],
    total := pf 80, notes := none }

def rA : ExtractionResult :=
  { text := tA, client_messages := [], services := [], new_clients := [ncMaria],
    proposals := [] }

def clientX : DBClient :=
  { id := 1, name := str "x", phone := none, email := none, address := none,
    language := str "en", preferences := none, maintenance_package := none, notes := none }

def dbX : DB := { emptyDB with clients := [clientX] }

def ncCarlos : NewClientCand :=
  { name := str "Carlos Ruiz", phone := none, address := none, notes := none }

def clientPedro : DBClient :=
  { id := 1, name := str "Pedro", phone := none, email := none, address := none,
    language := str "en", preferences := none, maintenance_package := none, notes := none }

def dbPedro : DB := { emptyDB with clients := [clientPedro] }

def msgCarlos : Str := str "Cliente nuevo Carlos Ruiz, vecino de Pedro"

def rCarlos : ExtractionResult :=
  { text := msgCarlos, client_messages := [],
    services := [{ client_name := str "Pedro", description := str "poda", price := pf 50 }],
    new_clients := [ncCarlos], proposals := [] }

def sessA : DBSession :=
  { id := 1, title := str "Nueva conversacion", client_id := none,
    created_at := 1, updated_at := 5 }

def sessB : DBSession :=
  { id := 2, title := str "Nueva conversacion", client_id := none,
    created_at := 2, updated_at := 3 }

def dbSess : DB := { emptyDB with chat_sessions := [sessB, sessA], now := 6 }

/-! General lemmas about the reconciliation loops. -/

theorem reconcile_empty (env : Env) (db : DB) (t : Str) :
    reconcile env db (emptyExtraction t) = db := rfl

/-- Claim C3: a well-formed new-client candidate not present in the store
is created exactly once with exactly the supplied fields, and a second
reconciliation once the client exists performs zero additional creates. -/
theorem c3_new_client_create_once :
    (∀ (env : Env) (db : DB) (nc : NewClientCand),
      get_client_by_name db nc.name = none →
      reconcile env db (soloNewClient nc) =
        { db with clients := db.clients ++
            [{ id := db.clients.length + 1, name := nc.name, phone := nc.phone,
               email := none, address := nc.address, language := str "en",
               preferences := none, maintenance_package := none, notes := nc.notes }] }) ∧
    (∀ (env : Env) (db : DB) (nc : NewClientCand) (c : DBClient),
      get_client_by_name db nc.name = some c →
      reconcile env db (soloNewClient nc) = db) := by
  constructor
  · intro env db nc h
    simp [reconcile, soloNewClient, applyNewClients, applyClientMessages,
      applyServices, applyProposals, h, create_client]
  · intro env db nc c h
    simp [reconcile, soloNewClient, applyNewClients, applyClientMessages,
      applyServices, applyProposals, h]

theorem c3_witness :
    get_client_by_name emptyDB (str "Maria Lopez") = none ∧
    reconcile envT emptyDB (soloNewClient ncMaria) =
      { emptyDB with clients := emptyDB.clients ++
          [{ id := emptyDB.clients.length + 1, name := ncMaria.name, phone := ncMaria.phone,
             email := none, address := ncMaria.address, language := str "en",
             preferences := none, maintenance_package := none, notes := ncMaria.notes }] } :=
  ⟨by decide, c3_new_client_create_once.1 envT emptyDB ncMaria (by decide)⟩

/-- Claim C4: the stored proposal's total (and subtotal) equal the
candidate's declared total verbatim, with no recomputation from the line
items; the concrete scenario extracts items 50 and 30 with total 80. -/
theorem c4_proposal_total_verbatim :
    (∀ (env : Env) (db : DB) (p : ProposalCand) (c : DBClient),
      get_client_by_name db p.client_name = some c →
      (reconcile env db (soloProposal p)).proposals =
        db.proposals ++
          [{ id := db.proposals.length + 1, client_id := c.id,
             proposal_number := generate_proposal_number env db,
             services := p.services, subtotal := p.total, total := p.total,
             notes := p.notes, status := str "draft", valid_until := env.today + 30 }]) ∧
    process_response tC = .ok { text := tC, client_messages := [], services := [],
                                new_clients := [], proposals := [propMaria] } ∧
    process_response tCBad = .ok { text := tCBad, client_messages := [], services := [],
                                   new_clients := [], proposals := [propMariaBad] } ∧
    propMariaBad.total ≠ pf 80 := by
  refine ⟨?_, by decide, by decide, by decide⟩
  intro env db p c h
  simp [reconcile, soloProposal, applyNewClients, applyClientMessages,
    applyServices, applyProposals, h, create_proposal]

theorem c4_witness :
    get_client_by_name dbMaria (str "Maria") = some clientMaria ∧
    (reconcile envT dbMaria (soloProposal propMaria)).proposals =
      dbMaria.proposals ++
        [{ id := dbMaria.proposals.length + 1, client_id := clientMaria.id,
           proposal_number := generate_proposal_number envT dbMaria,
           services := propMaria.services, subtotal := propMaria.total,
           total := propMaria.total, notes := propMaria.notes, status := str "draft",
           valid_until := envT.today + 30 }] :=
  ⟨by decide, c4_proposal_total_verbatim.1 envT dbMaria propMaria clientMaria (by decide)⟩

theorem set_price_some (db : DB) (st : Str) (pr : PyFloat) (es notes : Option Str)
    (e : DBPrice) (h : get_price db st = some e) :
    set_price db st pr es notes =
      { db with price_book := db.price_book.map (fun p =>
          if p.id = e.id then
            { p with default_price := pr, times_used := p.times_used + 1 }
          else p) } := by
  simp [set_price, h]

theorem set_price_none (db : DB) (st : Str) (pr : PyFloat) (es notes : Option Str)
    (h : get_price db st = none) :
    set_price db st pr es notes =
      { db with price_book := db.price_book ++
          [{ id := db.price_book.length + 1, service_type := st,
             service_type_es := es, default_price := pr, notes := notes,
             times_used := 1 }] } := by
  simp [set_price, h]

theorem get_price_add_service (env : Env) (db : DB) (cid : Nat) (d : Str)
    (p : PyFloat) (des : Option Str) (sd : Option Nat) (n : Option Str) (st : Str) :
    get_price (add_service env db cid d p des sd n).1 st = get_price db st := rfl

/-- Claim C5: a service candidate whose client resolves yields exactly one
service row dated today, and the price book is upserted: a fuzzy-matching
entry has its price replaced and its usage counter bumped by one, else a
fresh entry is inserted at usage one; no other table is touched. -/
theorem c5_service_pricebook_upsert :
    ∀ (env : Env) (db : DB) (svc : ServiceCand) (c : DBClient),
      get_client_by_name db svc.client_name = some c →
      ((reconcile env db (soloService svc)).services =
        db.services ++
          [{ id := db.services.length + 1, client_id := c.id,
             description := svc.description, description_es := none,
             price := svc.price, service_date := env.today, invoiced := false,
             invoice_id := none, notes := none }]) ∧
      (∀ e, get_price db svc.description = some e →
        (reconcile env db (soloService svc)).price_book =
          db.price_book.map (fun q =>
            if q.id = e.id then
              { q with default_price := svc.price, times_used := q.times_used + 1 }
            else q)) ∧
      (get_price db svc.description = none →
        (reconcile env db (soloService svc)).price_book =
          db.price_book ++
            [{ id := db.price_book.length + 1, service_type := svc.description,
               service_type_es := none, default_price := svc.price, notes := none,
               times_used := 1 }]) ∧
      (reconcile env db (soloService svc)).clients = db.clients ∧
      (reconcile env db (soloService svc)).proposals = db.proposals ∧
      (reconcile env db (soloService svc)).client_messages = db.client_messages := by
  intro env db svc c h
  have hrec : reconcile env db (soloService svc) =
      set_price (add_service env db c.id svc.description svc.price none none none).1
        svc.description svc.price none none := by
    simp [reconcile, soloService, applyNewClients, applyClientMessages,
      applyServices, applyProposals, h]
  cases hp : get_price db svc.description with
  | some e =>
    have hall : reconcile env db (soloService svc) =
        { db with
            services := db.services ++
              [{ id := db.services.length + 1, client_id := c.id,
                 description := svc.description, description_es := none,
                 price := svc.price, service_date := env.today, invoiced := false,
                 invoice_id := none, notes := none }],
            price_book := db.price_book.map (fun q =>
              if q.id = e.id then
                { q with default_price := svc.price, times_used := q.times_used + 1 }
              else q) } := by
      rw [hrec, set_price_some _ _ _ _ _ e (by rw [get_price_add_service]; exact hp)]
      simp [add_service]
    refine ⟨by rw [hall], ?_, ?_, by rw [hall], by rw [hall], by rw [hall]⟩
    · intro e' hp'
      have he : e = e' := Option.some.inj hp'
      subst he
      rw [hall]
    · intro hp'
      exact Option.noConfusion hp'
  | none =>
    have hall : reconcile env db (soloService svc) =
        { db with
            services := db.services ++
              [{ id := db.services.length + 1, client_id := c.id,
                 description := svc.description, description_es := none,
                 price := svc.price, service_date := env.today, invoiced := false,
                 invoice_id := none, notes := none }],
            price_book := db.price_book ++
              [{ id := db.price_book.length + 1, service_type := svc.description,
                 service_type_es := none, default_price := svc.price, notes := none,
                 times_used := 1 }] } := by
      rw [hrec, set_price_none _ _ _ _ _ (by rw [get_price_add_service]; exact hp)]
      simp [add_service]
    refine ⟨by rw [hall], ?_, ?_, by rw [hall], by rw [hall], by rw [hall]⟩
    · intro e' hp'
      exact Option.noConfusion hp' 
    · intro hp'
      rw [hall]

theorem c5_witness :
    get_client_by_name dbMaria (str "Maria") = some clientMaria ∧
    get_price dbMaria (str "Poda de árbol") = none ∧
    (reconcile envT dbMaria (soloService svcPoda)).services =
      dbMaria.services ++
        [{ id := dbMaria.services.length + 1, client_id := clientMaria.id,
           description := svcPoda.description, description_es := none,
           price := svcPoda.price, service_date := envT.today, invoiced := false,
           invoice_id := none, notes := none }] ∧
    (reconcile envT dbMaria (soloService svcPoda)).price_book =
      dbMaria.price_book ++
        [{ id := dbMaria.price_book.length + 1, service_type := svcPoda.description,
           service_type_es := none, default_price := svcPoda.price, notes := none,
           times_used := 1 }] := by
  have h := c5_service_pricebook_upsert envT dbMaria svcPoda clientMaria (by decide)
  exact ⟨by decide, by decide, h.1, h.2.2.1 (by decide)⟩

/-- Claim C6: missing optional fields of a NEW CLIENT block come out null,
a missing Name drops the block, and the concrete scenario extracts one
candidate and reconciles to exactly one stored client row. -/
theorem c6_client_block_fields :
    process_response tA = .ok { text := tA, client_messages := [], services := [],
                                new_clients := [ncMaria], proposals := [] } ∧
    (reconcile envT emptyDB { text := tA, client_messages := [], services := [],
                              new_clients := [ncMaria], proposals := [] }).clients =
      [{ id := 1, name := str "Maria Lopez", phone := some (str "555-1234"), email := none,
         address := none, language := str "en", preferences := none,
         maintenance_package := none, notes := none }] ∧
    process_response tJuan = .ok { text := tJuan, client_messages := [], services := [],
                                   new_clients := [{ name := str "Juan", phone := none,
                                                     address := none, notes := none }],
                                   proposals := [] } ∧
    process_response tAna = .ok { text := tAna, client_messages := [], services := [],
                                  new_clients := [{ name := str "Ana", phone := some (str "1"),
                                                    address := none, notes := some (str "x") }],
                                  proposals := [] } ∧
    process_response tNoName = .ok (emptyExtraction tNoName) := by decide

theorem pyFloat_error_shape (s : Str) (e : PyErr) (h : pyFloat s = .error e) :
    e = .valueError s ∧ validFloatChars s = false := by
  unfold pyFloat at h
  split at h
  · exact Except.noConfusion h
  · next hv =>
    cases h
    exact ⟨rfl, by simpa using hv⟩

theorem svcOfCaps_error (t : Str) (caps : Caps) (e : PyErr)
    (h : svcOfCaps t caps = .error e) :
    ∃ s, e = .valueError s ∧ validFloatChars s = false := by
  unfold svcOfCaps at h
  split at h
  · next e' he =>
    cases h
    obtain ⟨h1, h2⟩ := pyFloat_error_shape _ _ he
    exact ⟨_, h1, h2⟩
  · exact Except.noConfusion h

theorem parsePropLine_error (line : Str) (e : PyErr)
    (h : parsePropLine line = .error e) :
    ∃ s, e = .valueError s ∧ validFloatChars s = false := by
  simp only [parsePropLine] at h
  split at h
  · split at h
    · split at h
      · split at h
        · next he =>
          cases h
          obtain ⟨h1, h2⟩ := pyFloat_error_shape _ _ he
          exact ⟨_, h1, h2⟩
        · exact Except.noConfusion h
      · exact Except.noConfusion h
    · exact Except.noConfusion h
  · exact Except.noConfusion h

theorem parsePropLines_error (ls : List Str) (e : PyErr)
    (h : parsePropLines ls = .error e) :
    ∃ s, e = .valueError s ∧ validFloatChars s = false := by
  induction ls with
  | nil => exact Except.noConfusion h
  | cons l ls ih =>
    unfold parsePropLines at h
    split at h
    · next he => cases h; exact parsePropLine_error l _ he
    · exact ih h
    · split at h
      · next he => cases h; exact ih he
      · exact Except.noConfusion h

theorem propOfCaps_error (t : Str) (caps : Caps) (e : PyErr)
    (h : propOfCaps t caps = .error e) :
    ∃ s, e = .valueError s ∧ validFloatChars s = false := by
  unfold propOfCaps at h
  cases hps : parsePropLines (splitOnChar '\n' (pyStrip (groupOrEmpty t caps 2))) with
  | error e' =>
    simp only [hps] at h
    cases h
    exact parsePropLines_error _ _ hps
  | ok svcs =>
    simp only [hps] at h
    cases hpf : pyFloat (pyStrip (groupOrEmpty t caps 3)) with
    | error e'' =>
      simp only [hpf] at h
      cases h
      obtain ⟨h1, h2⟩ := pyFloat_error_shape _ _ hpf
      exact ⟨_, h1, h2⟩
    | ok tot => simp [hpf] at h

theorem exMapM_error_shape {α β : Type} (P : PyErr → Prop) (f : α → Except PyErr β)
    (hf : ∀ x e, f x = .error e → P e) :
    ∀ (l : List α) (e : PyErr), exMapM l f = .error e → P e := by
  intro l
  induction l with
  | nil => intro e h; exact Except.noConfusion h
  | cons x xs ih =>
    intro e h
    unfold exMapM at h
    split at h
    · next he => cases h; exact hf x e he
    · split at h
      · next he => cases h; exact ih _ he
      · exact Except.noConfusion h

theorem process_response_error_shape (t : Str) (e : PyErr)
    (h : process_response t = .error e) :
    ∃ s, e = .valueError s ∧ validFloatChars s = false := by
  unfold process_response at h
  split at h
  · next he =>
    cases h
    exact exMapM_error_shape _ _ (fun caps e' h' => svcOfCaps_error t caps e' h') _ _ he
  · split at h
    · next he =>
      cases h
      exact exMapM_error_shape _ _ (fun caps e' h' => propOfCaps_error t caps e' h') _ _ he
    · exact Except.noConfusion h

/-- Claim C1 (amended): extraction either returns normally, or raises the
ValueError of Python float() on a matched digits-and-dots price text that
is not a valid float literal; no other failure is possible. -/
theorem c1_extraction_error_only_float :
    ∀ t : Str, (∃ r, process_response t = .ok r) ∨
      ∃ s, process_response t = .error (.valueError s) ∧ validFloatChars s = false := by
  intro t
  cases h : process_response t with
  | ok r => exact .inl ⟨r, rfl⟩
  | error e =>
    obtain ⟨s, rfl, hv⟩ := process_response_error_shape t e h
    exact .inr ⟨s, rfl, hv⟩

/-- Claim C1 counterexample: a syntactically matched price whose text has
two dots makes extraction raise a ValueError instead of skipping. -/
theorem c1_counterexample :
    process_response tErr = .error (.valueError (str "1.2.3")) := by decide

/-- Claim C2 counterexample: re-processing the reply of scenario A does
not re-create a duplicate client; the store still holds one client row. -/
theorem c2_counterexample :
    (process_response tA).toOption.map (fun r =>
      ((reconcile envT emptyDB r).clients.length,
       (reconcile envT (reconcile envT emptyDB r) r).clients.length)) = some (1, 1) := by
  decide

/-! No-tag lemmas: a pattern that opens with a literal cannot match where
that literal is absent, so a text containing no tag yields no matches. -/

theorem mstep_reStr_fail (rec : RE → Str → Nat → Caps →
      (Str → Nat → Caps → Option (Nat × Caps)) → Option (Nat × Caps))
    (L : Str) :
    ∀ (s : Str) (pos : Nat) (caps : Caps)
      (k : Str → Nat → Caps → Option (Nat × Caps)),
      isLeadOf L s = false → mstep rec (reStr L) s pos caps k = none := by
  induction L with
  | nil => intro s pos caps k h; simp [isLeadOf] at h
  | cons c L ih =>
    intro s pos caps k h
    cases s with
    | nil => simp [reStr, mstep, reChar]
    | cons d s' =>
      simp only [isLeadOf] at h
      by_cases hcd : c = d
      · subst hcd
        simp only [Bool.true_and, beq_self_eq_true] at h
        simpa [reStr, mstep, reChar] using ih s' (pos + 1) caps k h
      · have hdc : (d == c) = false := beq_eq_false_iff_ne.mpr (fun hh => hcd hh.symm)
        simp [reStr, mstep, reChar, hdc]

theorem matchAt_head_fail (L : Str) (r rest : RE) (text : Str) (pos : Nat)
    (hr : r = .seq (reStr L) rest) (h : isLeadOf L (text.drop pos) = false) :
    matchAt r text pos = none := by
  subst hr
  show mmatch (text.length + 1) (.seq (reStr L) rest) (text.drop pos) pos []
      (fun _ p c => some (p, c)) = none
  simp only [mmatch, mstep]
  exact mstep_reStr_fail _ L _ pos [] _ h

theorem findIterGo_none (r : RE) (text : Str)
    (h : ∀ pos, matchAt r text pos = none) :
    ∀ (fuel pos : Nat), findIterGo r text fuel pos = [] := by
  intro fuel
  induction fuel with
  | zero => intro pos; rfl
  | succ n ih =>
    intro pos
    unfold findIterGo
    by_cases hp : pos > text.length
    · simp [hp]
    · simp [hp, h pos, ih]

theorem findIter_none (r : RE) (text : Str)
    (h : ∀ pos, matchAt r text pos = none) : findIter r text = [] :=
  findIterGo_none r text h _ _

theorem not_contains_isLeadOf (tag t : Str) (htag : tag ≠ [])
    (h : containsStr tag t = false) :
    ∀ pos, isLeadOf tag (t.drop pos) = false := by
  intro pos
  by_cases hp : pos ≤ t.length
  · have hall := List.any_eq_false.mp h
    have := hall pos (List.mem_range.mpr (by omega))
    simpa using this
  · have hdrop : t.drop pos = [] := List.drop_eq_nil_of_le (by omega)
    rw [hdrop]
    cases tag with
    | nil => exact absurd rfl htag
    | cons c l => rfl

/-- Claim C9: a reply containing none of the four opening tags extracts
four empty candidate sequences and its reconciliation pass leaves the
whole store untouched. -/
theorem c9_no_tags_no_writes :
    ∀ (env : Env) (db : DB) (t : Str),
      containsStr (str "[CLIENTE NUEVO]") t = false →
      containsStr (str "[MENSAJE PARA CLIENTE: ") t = false →
      containsStr (str "[SERVICIO REGISTRADO]") t = false →
      containsStr (str "[PROPUESTA]") t = false →
      process_response t = .ok (emptyExtraction t) ∧
      reconcile env db (emptyExtraction t) = db := by
  intro env db t h1 h2 h3 h4
  have f1 : findIter client_pattern t = [] :=
    findIter_none _ _ (fun pos => matchAt_head_fail (str "[CLIENTE NUEVO]") _ _ t pos rfl
      (not_contains_isLeadOf _ _ (by decide) h1 pos))
  have f2 : findIter client_msg_pattern t = [] :=
    findIter_none _ _ (fun pos => matchAt_head_fail (str "[MENSAJE PARA CLIENTE: ") _ _ t pos rfl
      (not_contains_isLeadOf _ _ (by decide) h2 pos))
  have f3 : findIter service_pattern t = [] :=
    findIter_none _ _ (fun pos => matchAt_head_fail (str "[SERVICIO REGISTRADO]") _ _ t pos rfl
      (not_contains_isLeadOf _ _ (by decide) h3 pos))
  have f4 : findIter proposal_pattern t = [] :=
    findIter_none _ _ (fun pos => matchAt_head_fail (str "[PROPUESTA]") _ _ t pos rfl
      (not_contains_isLeadOf _ _ (by decide) h4 pos))
  refine ⟨?_, reconcile_empty env db t⟩
  simp [process_response, f1, f2, f3, f4, exMapM, emptyExtraction]

theorem c9_witness :
    containsStr (str "[CLIENTE NUEVO]") (str "Hola, todo bien") = false ∧
    containsStr (str "[MENSAJE PARA CLIENTE: ") (str "Hola, todo bien") = false ∧
    containsStr (str "[SERVICIO REGISTRADO]") (str "Hola, todo bien") = false ∧
    containsStr (str "[PROPUESTA]") (str "Hola, todo bien") = false ∧
    process_response (str "Hola, todo bien") = .ok (emptyExtraction (str "Hola, todo bien")) ∧
    reconcile envT dbMaria (emptyExtraction (str "Hola, todo bien")) = dbMaria := by
  have h := c9_no_tags_no_writes envT dbMaria (str "Hola, todo bien")
    (by decide) (by decide) (by decide) (by decide)
  exact ⟨by decide, by decide, by decide, by decide, h.1, h.2⟩

/-! LIKE-matching lemmas for the fuzzy lookup claims. -/

theorem charToNatOfNat (n : Nat) (h : n.isValidChar) : (Char.ofNat n).toNat = n := by
  simp [Char.ofNat, dif_pos h, Char.ofNatAux, Char.toNat, UInt32.toNat]

theorem likeMatch_nil (s : Str) : likeMatch [] s = s.isEmpty := by
  cases s <;> rfl

theorem likeMatch_pct (p s : Str) :
    likeMatch ('%' :: p) s =
      (likeMatch p s ||
        (match s with
         | [] => false
         | _ :: s' => likeMatch ('%' :: p) s')) := by
  cases s <;> rfl

theorem likeMatch_chr (c : Char) (p s : Str) (hc : c ≠ '%') :
    likeMatch (c :: p) s =
      (match s with
       | [] => false
       | c' :: s' => (if c = '_' then true else c == c') && likeMatch p s') := by
  cases s with
  | nil => simp [likeMatch, likeS, likeP, hc]
  | cons d s' => simp [likeMatch, likeS, likeP, hc]

theorem likeMatch_pct_nil : ∀ s : Str, likeMatch ['%'] s = true := by
  intro s
  induction s with
  | nil => rfl
  | cons c s' ih => rw [likeMatch_pct]; simp [likeMatch_nil, ih]

theorem likeMatch_pct_skip (t p s : Str) (h : likeMatch p s = true) :
    likeMatch ('%' :: p) (t ++ s) = true := by
  induction t with
  | nil => rw [likeMatch_pct]; simp [h]
  | cons c t' ih => rw [likeMatch_pct]; simp [ih]

theorem likeMatch_self_trailing (m : Str) : ∀ t : Str, likeMatch (m ++ ['%']) (m ++ t) = true := by
  induction m with
  | nil => intro t; exact likeMatch_pct_nil t
  | cons c m' ih =>
    intro t
    by_cases hc : c = '%'
    · subst hc
      have h1 : likeMatch (m' ++ ['%']) (m' ++ t) = true := ih t
      have h2 := likeMatch_pct_skip ['%'] (m' ++ ['%']) (m' ++ t) h1
      simpa using h2
    · by_cases hu : c = '_'
      · subst hu
        simp only [List.cons_append]
        rw [likeMatch_chr _ _ _ hc]
        simpa using ih t
      · simp only [List.cons_append]
        rw [likeMatch_chr _ _ _ hc]
        simp [hu, ih t]

theorem likeMatch_self_pct (m : Str) : likeMatch ('%' :: (m ++ ['%'])) m = true := by
  have h1 : likeMatch (m ++ ['%']) m = true := by
    have := likeMatch_self_trailing m []
    simpa using this
  have h2 := likeMatch_pct_skip [] (m ++ ['%']) m h1
  simpa using h2

theorem sqliteLower_wrap (name : Str) :
    sqliteLower ('%' :: (name ++ ['%'])) = '%' :: (sqliteLower name ++ ['%']) := by
  simp [sqliteLower]
  decide

theorem sqlLike_self (name : Str) : sqlLike name ('%' :: (name ++ ['%'])) = true := by
  unfold sqlLike
  rw [sqliteLower_wrap]
  exact likeMatch_self_pct (sqliteLower name)

theorem likeMatch_pct_iff (p : Str) :
    ∀ t : Str, likeMatch ('%' :: p) t = true ↔ ∃ i, likeMatch p (t.drop i) = true := by
  intro t
  induction t with
  | nil =>
    rw [likeMatch_pct]
    constructor
    · intro h
      simp at h
      exact ⟨0, by simpa using h⟩
    · rintro ⟨i, hi⟩
      simp at hi
      simp [hi]
  | cons c t' ih =>
    rw [likeMatch_pct]
    constructor
    · intro h
      rcases Bool.or_eq_true_iff.mp h with h0 | h1
      · exact ⟨0, by simpa using h0⟩
      · obtain ⟨i, hi⟩ := ih.mp h1
        exact ⟨i + 1, by simpa using hi⟩
    · rintro ⟨i, hi⟩
      cases i with
      | zero => simp at hi; simp [hi]
      | succ j =>
        have : likeMatch ('%' :: p) t' = true := ih.mpr ⟨j, by simpa using hi⟩
        simp [this]

theorem likeMatch_literal (f : Str) (hp : '%' ∉ f) (hu : '_' ∉ f) :
    ∀ s : Str, likeMatch (f ++ ['%']) s = isLeadOf f s := by
  induction f with
  | nil => intro s; simp [likeMatch_pct_nil, isLeadOf]
  | cons c f' ih =>
    intro s
    have hc : c ≠ '%' := fun h => hp (h ▸ List.mem_cons_self c f')
    have hcu : c ≠ '_' := fun h => hu (h ▸ List.mem_cons_self c f')
    have hp' : '%' ∉ f' := fun h => hp (List.mem_cons_of_mem c h)
    have hu' : '_' ∉ f' := fun h => hu (List.mem_cons_of_mem c h)
    simp only [List.cons_append]
    rw [likeMatch_chr _ _ _ hc]
    cases s with
    | nil => rfl
    | cons d s' => simp [isLeadOf, hcu, ih hp' hu']

theorem containsStr_iff (f t : Str) :
    containsStr f t = true ↔ ∃ i, isLeadOf f (t.drop i) = true := by
  unfold containsStr
  rw [List.any_eq_true]
  constructor
  · rintro ⟨i, _, hi⟩
    exact ⟨i, hi⟩
  · rintro ⟨i, hi⟩
    by_cases hle : i ≤ t.length
    · exact ⟨i, List.mem_range.mpr (by omega), hi⟩
    · have hdrop : t.drop i = [] := List.drop_eq_nil_of_le (by omega)
      rw [hdrop] at hi
      cases f with
      | nil => exact ⟨0, List.mem_range.mpr (by omega), by simp [isLeadOf]⟩
      | cons c l => exact absurd hi (by simp [isLeadOf])

theorem likeMatch_wrap_iff (f t : Str) (hp : '%' ∉ f) (hu : '_' ∉ f) :
    likeMatch ('%' :: (f ++ ['%'])) t = true ↔ containsStr f t = true := by
  rw [likeMatch_pct_iff, containsStr_iff]
  constructor
  · rintro ⟨i, hi⟩
    exact ⟨i, by rwa [likeMatch_literal f hp hu] at hi⟩
  · rintro ⟨i, hi⟩
    exact ⟨i, by rwa [likeMatch_literal f hp hu]⟩

theorem sqliteLowerChar_low (c w : Char) (hw : w.toNat < 97)
    (h : sqliteLowerChar c = w) : c = w := by
  unfold sqliteLowerChar at h
  split at h
  · next hb =>
    exfalso
    have hv : (c.toNat + 32).isValidChar := Or.inl (by omega)
    have := congrArg Char.toNat h
    rw [charToNatOfNat _ hv] at this
    omega
  · exact h

theorem sqliteLower_no_wild (f : Str) (w : Char) (hw : w.toNat < 97) (h : w ∉ f) :
    w ∉ sqliteLower f := by
  intro hmem
  obtain ⟨c, hc, hlc⟩ := List.mem_map.mp hmem
  exact h ((sqliteLowerChar_low c w hw hlc) ▸ hc)

/-- Claim C7 (amended): the fuzzy lookup is SQL LIKE matching with
ASCII-only case folding in which the percent and underscore characters of
the fragment act as wildcards; for a fragment free of both wildcard
characters it is exactly ASCII-case-insensitive substring matching against
the stored names, returning a stored client. -/
theorem c7_like_lookup :
    ∀ (db : DB) (frag : Str), '%' ∉ frag → '_' ∉ frag →
      ((get_client_by_name db frag).isSome ↔
        ∃ c ∈ db.clients, containsStr (sqliteLower frag) (sqliteLower c.name) = true) ∧
      (∀ c, get_client_by_name db frag = some c →
        c ∈ db.clients ∧ containsStr (sqliteLower frag) (sqliteLower c.name) = true) := by
  intro db frag hp hu
  have hlp : '%' ∉ sqliteLower frag := sqliteLower_no_wild frag '%' (by decide) hp
  have hlu : '_' ∉ sqliteLower frag := sqliteLower_no_wild frag '_' (by decide) hu
  have hpred : ∀ c : DBClient,
      sqlLike c.name ('%' :: (frag ++ ['%'])) =
        containsStr (sqliteLower frag) (sqliteLower c.name) := by
    intro c
    unfold sqlLike
    rw [sqliteLower_wrap]
    have hiff := likeMatch_wrap_iff (sqliteLower frag) (sqliteLower c.name) hlp hlu
    cases hlm : likeMatch ('%' :: (sqliteLower frag ++ ['%'])) (sqliteLower c.name) with
    | true => exact (hiff.mp hlm).symm
    | false =>
      cases hcc : containsStr (sqliteLower frag) (sqliteLower c.name) with
      | false => rfl
      | true => exact Bool.noConfusion ((hiff.mpr hcc).symm.trans hlm)
  constructor
  · unfold get_client_by_name
    rw [List.find?_isSome]
    constructor
    · rintro ⟨c, hc, hpc⟩
      exact ⟨c, hc, (hpred c) ▸ hpc⟩
    · rintro ⟨c, hc, hpc⟩
      exact ⟨c, hc, (hpred c).symm ▸ hpc⟩
  · intro c hfind
    unfold get_client_by_name at hfind
    have h1 := List.find?_some hfind
    have h2 : sqlLike c.name ('%' :: (frag ++ ['%'])) = true := h1
    exact ⟨List.mem_of_find?_eq_some hfind, (hpred c) ▸ h2⟩

/-- Claim C7 counterexample: the fragment consisting of one underscore is
not a substring of the stored name x under any case folding, yet the
lookup returns that client, because the underscore is a LIKE wildcard. -/
theorem c7_counterexample :
    get_client_by_name dbX (str "_") = some clientX ∧
    containsStr (sqliteLower (str "_")) (sqliteLower clientX.name) = false ∧
    containsStr (pyLower (str "_")) (pyLower clientX.name) = false := by decide

theorem c7_witness :
    ('%' ∉ str "aria") ∧ ('_' ∉ str "aria") ∧
    ((get_client_by_name dbMaria (str "aria")).isSome ↔
      ∃ c ∈ dbMaria.clients,
        containsStr (sqliteLower (str "aria")) (sqliteLower c.name) = true) :=
  ⟨by decide, by decide, (c7_like_lookup dbMaria (str "aria") (by decide) (by decide)).1⟩

/-! Session-titler lemmas. -/

theorem titleFromMention_some (l : List DBClient) (ml : Str)
    (h : ∃ c ∈ l, containsStr (pyLower c.name) ml = true) :
    ∃ c ∈ l, containsStr (pyLower c.name) ml = true ∧
      titleFromMention l ml = some (str "Chat: " ++ c.name) := by
  induction l with
  | nil => obtain ⟨c, hc, _⟩ := h; cases hc
  | cons d l ih =>
    by_cases hd : containsStr (pyLower d.name) ml = true
    · exact ⟨d, List.mem_cons_self d l, hd, by simp [titleFromMention, hd]⟩
    · obtain ⟨c, hc, hcc⟩ := h
      rcases List.mem_cons.mp hc with rfl | hc'
      · exact absurd hcc hd
      · obtain ⟨c', hc'', hcc', ht⟩ := ih ⟨c, hc', hcc⟩
        refine ⟨c', List.mem_cons_of_mem d hc'', hcc', ?_⟩
        simpa [titleFromMention, hd] using ht

theorem titleFromMention_none (l : List DBClient) (ml : Str)
    (h : ∀ c ∈ l, containsStr (pyLower c.name) ml = false) :
    titleFromMention l ml = none := by
  induction l with
  | nil => rfl
  | cons d l ih =>
    have hd := h d (List.mem_cons_self d l)
    have ht := ih (fun c hc => h c (List.mem_cons_of_mem d hc))
    simpa [titleFromMention, hd] using ht

theorem mem_insertByName (c x : DBClient) (l : List DBClient) :
    x ∈ insertByName c l ↔ x = c ∨ x ∈ l := by
  induction l with
  | nil => simp [insertByName]
  | cons d l ih =>
    simp only [insertByName]
    split
    · simp [List.mem_cons]
    · simp only [List.mem_cons, ih]
      tauto

theorem mem_sortByName (x : DBClient) (l : List DBClient) :
    x ∈ sortByName l ↔ x ∈ l := by
  induction l with
  | nil => simp [sortByName]
  | cons d l ih =>
    simp only [sortByName, List.foldr] at *
    rw [mem_insertByName]
    simp [List.mem_cons, ih]

theorem mem_get_all_clients (x : DBClient) (db : DB) :
    x ∈ get_all_clients db ↔ x ∈ db.clients := mem_sortByName x db.clients

/-- Claim C8: the session titler follows the strict six-level priority of
the source, with the concrete scenario in which a fresh new-client
candidate overrides every lower-priority signal. -/
theorem c8_session_title_priority :
    (∀ (db : DB) (msg : Str) (r : ExtractionResult),
      (∀ nc l', r.new_clients = nc :: l' →
        generate_session_title db msg r = some (str "Cliente: " ++ nc.name)) ∧
      (r.new_clients = [] → ∀ p l', r.proposals = p :: l' → p.client_name ≠ [] →
        generate_session_title db msg r = some (str "Propuesta: " ++ p.client_name)) ∧
      (r.new_clients = [] → r.proposals = [] → ∀ m l', r.client_messages = m :: l' →
        m.client_name ≠ [] →
        generate_session_title db msg r = some (str "Mensaje: " ++ m.client_name)) ∧
      (r.new_clients = [] → r.proposals = [] → r.client_messages = [] →
        ∀ sv l', r.services = sv :: l' → sv.client_name ≠ [] →
        generate_session_title db msg r = some (str "Servicio: " ++ sv.client_name)) ∧
      (r.new_clients = [] → r.proposals = [] → r.client_messages = [] → r.services = [] →
        (∃ c ∈ db.clients, containsStr (pyLower c.name) (pyLower msg) = true) →
        ∃ c ∈ db.clients, containsStr (pyLower c.name) (pyLower msg) = true ∧
          generate_session_title db msg r = some (str "Chat: " ++ c.name)) ∧
      (r.new_clients = [] → r.proposals = [] → r.client_messages = [] → r.services = [] →
        (∀ c ∈ db.clients, containsStr (pyLower c.name) (pyLower msg) = false) →
        generate_session_title db msg r = titlePreview msg)) ∧
    generate_session_title dbPedro msgCarlos rCarlos = some (str "Cliente: Carlos Ruiz") := by
  constructor
  · intro db msg r
    refine ⟨?_, ?_, ?_, ?_, ?_, ?_⟩
    · intro nc l' h
      simp [generate_session_title, h]
    · intro h0 p l' h hname
      simp [generate_session_title, h0, gst2, h, hname]
    · intro h0 h1 m l' h hname
      simp [generate_session_title, h0, gst2, h1, gst3, h, hname]
    · intro h0 h1 h2 sv l' h hname
      simp [generate_session_title, h0, gst2, h1, gst3, h2, gst4, h, hname]
    · intro h0 h1 h2 h3 hex
      obtain ⟨c0, hc0, hcc0⟩ := hex
      obtain ⟨c, hc, hcc, ht⟩ := titleFromMention_some (get_all_clients db) (pyLower msg)
        ⟨c0, (mem_get_all_clients c0 db).mpr hc0, hcc0⟩
      refine ⟨c, (mem_get_all_clients c db).mp hc, hcc, ?_⟩
      simp [generate_session_title, h0, gst2, h1, gst3, h2, gst4, h3, gst5, ht]
    · intro h0 h1 h2 h3 hall
      have ht := titleFromMention_none (get_all_clients db) (pyLower msg)
        (fun c hc => hall c ((mem_get_all_clients c db).mp hc))
      simp [generate_session_title, h0, gst2, h1, gst3, h2, gst4, h3, gst5, ht]
  · decide

theorem c8_witness :
    rCarlos.new_clients = ncCarlos :: [] ∧
    generate_session_title dbPedro msgCarlos rCarlos =
      some (str "Cliente: " ++ ncCarlos.name) :=
  ⟨rfl, ((c8_session_title_priority.1 dbPedro msgCarlos rCarlos).1 ncCarlos [] rfl)⟩

/-! Lemmas about the default-session choice for the conversation claims. -/

theorem maxByUpdated_foldl_facts :
    ∀ (l : List DBSession) (acc : Option DBSession) (b : DBSession),
      l.foldl (fun best s =>
        match best with
        | none => some s
        | some b => if s.updated_at > b.updated_at then some s else some b) acc = some b →
      (acc = some b ∨ b ∈ l) ∧ (∀ x ∈ l, x.updated_at ≤ b.updated_at) ∧
        (∀ a, acc = some a → a.updated_at ≤ b.updated_at) := by
  intro l
  induction l with
  | nil =>
    intro acc b h
    simp only [List.foldl_nil] at h
    exact ⟨Or.inl h, by simp, fun a ha => by rw [ha] at h; cases h; exact Nat.le_refl _⟩
  | cons x l ih =>
    intro acc b h
    simp only [List.foldl_cons] at h
    obtain ⟨hmem, hle, hacc⟩ := ih _ b h
    have hstep : ∀ a, (match acc with
        | none => some x
        | some b => if x.updated_at > b.updated_at then some x else some b) = some a →
        (a = x ∨ acc = some a) ∧ x.updated_at ≤ a.updated_at := by
      intro a ha
      cases acc with
      | none => cases ha; exact ⟨Or.inl rfl, Nat.le_refl _⟩
      | some b0 =>
        simp only at ha
        split at ha
        · next hgt => cases ha; exact ⟨Or.inl rfl, Nat.le_refl _⟩
        · next hgt => cases ha; exact ⟨Or.inr rfl, by omega⟩
    constructor
    · rcases hmem with hacc' | hmem'
      · obtain ⟨hx, _⟩ := hstep b hacc'
        rcases hx with rfl | h'
        · exact Or.inr (List.mem_cons_self b l)
        · exact Or.inl h'
      · exact Or.inr (List.mem_cons_of_mem x hmem')
    constructor
    · intro y hy
      rcases List.mem_cons.mp hy with rfl | hy'
      · cases hs : (match acc with
          | none => some y
          | some b => if y.updated_at > b.updated_at then some y else some b) with
        | none =>
          cases acc with
          | none => exact Option.noConfusion hs
          | some b0 => simp only at hs; split at hs <;> exact Option.noConfusion hs
        | some a =>
          obtain ⟨_, hya⟩ := hstep a hs
          exact Nat.le_trans hya (hacc a hs)
      · exact hle y hy'
    · intro a ha
      cases hs : (match acc with
        | none => some x
        | some b => if x.updated_at > b.updated_at then some x else some b) with
      | none =>
        cases acc with
        | none => exact Option.noConfusion ha
        | some b0 => simp only at hs; split at hs <;> exact Option.noConfusion hs
      | some a' =>
        have hle' := hacc a' hs
        cases acc with
        | none => exact Option.noConfusion ha
        | some b0 =>
          cases ha
          simp only at hs
          split at hs
          · next hgt => cases hs; omega
          · next hgt => cases hs; exact hle'

theorem maxByUpdated_isSome :
    ∀ (l : List DBSession) (acc : Option DBSession),
      acc.isSome = true ∨ l ≠ [] →
      (l.foldl (fun best s =>
        match best with
        | none => some s
        | some b => if s.updated_at > b.updated_at then some s else some b) acc).isSome = true := by
  intro l
  induction l with
  | nil =>
    intro acc h
    rcases h with h | h
    · simpa using h
    · exact absurd rfl h
  | cons x l ih =>
    intro acc _
    simp only [List.foldl_cons]
    apply ih
    left
    cases acc with
    | none => rfl
    | some b0 =>
      simp only
      split <;> rfl

/-- Claim C10: the assistant turn is appended without a session id, so
add_message falls back to the most recently updated session; this is the
originating session precisely because the immediately preceding user-turn
append bumped its updated_at above every other session's. -/
theorem c10_assistant_append_fallback :
    ∀ (db : DB) (sid : Nat) (umsg amsg : Str),
      (∃ s ∈ db.chat_sessions, s.id = sid) →
      (∀ s ∈ db.chat_sessions, s.updated_at < db.now) →
      ((get_or_create_default_session ((add_message db (str "jaime") umsg (some sid)).1)).2 = sid ∧
       (add_message ((add_message db (str "jaime") umsg (some sid)).1)
         (str "assistant") amsg none).2 = sid ∧
       chatAppendPhase db sid umsg amsg =
         (add_message ((add_message db (str "jaime") umsg (some sid)).1)
           (str "assistant") amsg none).1) := by
  intro db sid umsg amsg hex hlt
  have hsessions : ((add_message db (str "jaime") umsg (some sid)).1).chat_sessions =
      db.chat_sessions.map (fun s =>
        if s.id = sid then { s with updated_at := db.now } else s) := rfl
  have hmax : ∀ b, maxByUpdated ((add_message db (str "jaime") umsg (some sid)).1).chat_sessions
      = some b → b.id = sid := by
    intro b hb
    unfold maxByUpdated at hb
    obtain ⟨hmem, hle, _⟩ := maxByUpdated_foldl_facts _ none b hb
    rcases hmem with h' | hmem'
    · exact Option.noConfusion h'
    · rw [hsessions] at hmem'
      obtain ⟨s, hs, hfs⟩ := List.mem_map.mp hmem'
      obtain ⟨s0, hs0, hid0⟩ := hex
      have hs0' : (if s0.id = sid then { s0 with updated_at := db.now } else s0) ∈
          ((add_message db (str "jaime") umsg (some sid)).1).chat_sessions := by
        rw [hsessions]
        exact List.mem_map_of_mem _ hs0
      have hbig : db.now ≤ b.updated_at := by
        have := hle _ hs0'
        simpa [hid0] using this
      by_cases hsid : s.id = sid
      · rw [← hfs]
        simp [hsid]
      · exfalso
        have h1 : b.updated_at = s.updated_at := by rw [← hfs]; simp [hsid]
        have h2 := hlt s hs
        omega
  have hb : ∃ b, maxByUpdated ((add_message db (str "jaime") umsg (some sid)).1).chat_sessions
      = some b := by
    have hne : ((add_message db (str "jaime") umsg (some sid)).1).chat_sessions ≠ [] := by
      rw [hsessions]
      obtain ⟨s0, hs0, _⟩ := hex
      intro hnil
      have hlen := congrArg List.length hnil
      simp at hlen
      rw [hlen] at hs0
      cases hs0
    have := maxByUpdated_isSome ((add_message db (str "jaime") umsg (some sid)).1).chat_sessions
      none (Or.inr hne)
    unfold maxByUpdated
    exact Option.isSome_iff_exists.mp this
  obtain ⟨b, hbmax⟩ := hb
  have hbid := hmax b hbmax
  have hdefault : (get_or_create_default_session
      ((add_message db (str "jaime") umsg (some sid)).1)).2 = sid := by
    unfold get_or_create_default_session
    rw [hbmax]
    exact hbid
  refine ⟨hdefault, ?_, rfl⟩
  have hsnd : (add_message ((add_message db (str "jaime") umsg (some sid)).1)
      (str "assistant") amsg none).2 =
      (get_or_create_default_session ((add_message db (str "jaime") umsg (some sid)).1)).2 := rfl
  rw [hsnd]
  exact hdefault

/-! Lemmas for the re-processing claim: the shape of each reconciliation
loop and the behaviour of the name lookup under client-list extension. -/

theorem get_client_by_name_congr (db db' : DB) (h : db'.clients = db.clients) (n : Str) :
    get_client_by_name db' n = get_client_by_name db n := by
  unfold get_client_by_name
  rw [h]

theorem lookup_isSome_append (db : DB) (n : Str) (suf : List DBClient)
    (h : (get_client_by_name db n).isSome = true) :
    (get_client_by_name { db with clients := db.clients ++ suf } n).isSome = true := by
  simp only [get_client_by_name] at h ⊢
  rw [List.find?_isSome] at h ⊢
  obtain ⟨c, hc, hp⟩ := h
  exact ⟨c, List.mem_append_left _ hc, hp⟩

theorem lookup_create_self (db : DB) (n : Str) (p e a : Option Str) (lg : Str)
    (pr mp nt : Option Str) :
    (get_client_by_name ((create_client db n p e a lg pr mp nt).1) n).isSome = true := by
  simp only [get_client_by_name, create_client]
  rw [List.find?_isSome]
  refine ⟨_, List.mem_append_right _ (List.mem_singleton.mpr rfl), ?_⟩
  exact sqlLike_self n

theorem applyNewClients_shape : ∀ (l : List NewClientCand) (db : DB),
    ∃ suf, applyNewClients db l = { db with clients := db.clients ++ suf } := by
  intro l
  induction l with
  | nil =>
    intro db
    exact ⟨[], by simp [applyNewClients]⟩
  | cons nc l ih =>
    intro db
    cases hl : get_client_by_name db nc.name with
    | some c =>
      have h1 : applyNewClients db (nc :: l) = applyNewClients db l := by
        simp [applyNewClients, List.foldl_cons, hl]
      rw [h1]
      exact ih db
    | none =>
      obtain ⟨suf, hsuf⟩ := ih ((create_client db nc.name nc.phone none nc.address (str "en")
        none none nc.notes).1)
      refine ⟨{ id := db.clients.length + 1, name := nc.name, phone := nc.phone, email := none,
                address := nc.address, language := str "en", preferences := none,
                maintenance_package := none, notes := nc.notes } :: suf, ?_⟩
      have h1 : applyNewClients db (nc :: l) =
          applyNewClients ((create_client db nc.name nc.phone none nc.address (str "en")
            none none nc.notes).1) l := by
        simp [applyNewClients, List.foldl_cons, hl]
      rw [h1, hsuf]
      simp [create_client]

theorem applyNewClients_resolves : ∀ (l : List NewClientCand) (db : DB) (nc : NewClientCand),
    nc ∈ l → (get_client_by_name (applyNewClients db l) nc.name).isSome = true := by
  intro l
  induction l with
  | nil => intro db nc h; cases h
  | cons m l ih =>
    intro db nc h
    rcases List.mem_cons.mp h with rfl | h'
    · cases hl : get_client_by_name db nc.name with
      | some c =>
        have h1 : applyNewClients db (nc :: l) = applyNewClients db l := by
          simp [applyNewClients, List.foldl_cons, hl]
        rw [h1]
        obtain ⟨suf, hsuf⟩ := applyNewClients_shape l db
        rw [hsuf]
        exact lookup_isSome_append db nc.name suf (by rw [hl]; rfl)
      | none =>
        have h1 : applyNewClients db (nc :: l) =
            applyNewClients ((create_client db nc.name nc.phone none nc.address (str "en")
              none none nc.notes).1) l := by
          simp [applyNewClients, List.foldl_cons, hl]
        rw [h1]
        obtain ⟨suf, hsuf⟩ := applyNewClients_shape l ((create_client db nc.name nc.phone none
          nc.address (str "en") none none nc.notes).1)
        rw [hsuf]
        exact lookup_isSome_append _ nc.name suf (lookup_create_self db nc.name nc.phone none
          nc.address (str "en") none none nc.notes)
    · have h1 : applyNewClients db (m :: l) = applyNewClients (applyNewClients db [m]) l := by
        simp [applyNewClients, List.foldl_cons]
      rw [h1]
      exact ih _ nc h'

theorem applyNewClients_noop : ∀ (l : List NewClientCand) (db : DB),
    (∀ nc ∈ l, (get_client_by_name db nc.name).isSome = true) →
    applyNewClients db l = db := by
  intro l
  induction l with
  | nil => intro db _; rfl
  | cons nc l ih =>
    intro db h
    obtain ⟨c, hc⟩ := Option.isSome_iff_exists.mp (h nc (List.mem_cons_self nc l))
    have h1 : applyNewClients db (nc :: l) = applyNewClients db l := by
      simp [applyNewClients, List.foldl_cons, hc]
    rw [h1]
    exact ih db (fun m hm => h m (List.mem_cons_of_mem nc hm))

theorem set_price_frame (db : DB) (st : Str) (pr : PyFloat) (es nts : Option Str) :
    (set_price db st pr es nts).clients = db.clients ∧
    (set_price db st pr es nts).services = db.services ∧
    (set_price db st pr es nts).proposals = db.proposals ∧
    (set_price db st pr es nts).client_messages = db.client_messages := by
  unfold set_price
  cases get_price db st <;> exact ⟨rfl, rfl, rfl, rfl⟩

theorem applyClientMessages_spec : ∀ (l : List ClientMsgCand) (db : DB),
    (applyClientMessages db l).clients = db.clients ∧
    (applyClientMessages db l).services = db.services ∧
    (applyClientMessages db l).price_book = db.price_book ∧
    (applyClientMessages db l).proposals = db.proposals ∧
    (applyClientMessages db l).client_messages.length =
      db.client_messages.length +
        l.countP (fun cm => (get_client_by_name db cm.client_name).isSome) := by
  intro l
  induction l with
  | nil => intro db; exact ⟨rfl, rfl, rfl, rfl, by simp [applyClientMessages]⟩
  | cons cm l ih =>
    intro db
    cases hl : get_client_by_name db cm.client_name with
    | none =>
      have h1 : applyClientMessages db (cm :: l) = applyClientMessages db l := by
        simp [applyClientMessages, List.foldl_cons, hl]
      obtain ⟨i1, i2, i3, i4, i5⟩ := ih db
      rw [h1]
      refine ⟨i1, i2, i3, i4, ?_⟩
      rw [i5, List.countP_cons]
      simp [hl]
    | some c =>
      have h1 : applyClientMessages db (cm :: l) =
          applyClientMessages ((queue_client_message db c.id cm.message).1) l := by
        simp [applyClientMessages, List.foldl_cons, hl]
      obtain ⟨i1, i2, i3, i4, i5⟩ := ih ((queue_client_message db c.id cm.message).1)
      have hq : ((queue_client_message db c.id cm.message).1).clients = db.clients := rfl
      have hpred : (fun m : ClientMsgCand =>
          (get_client_by_name ((queue_client_message db c.id cm.message).1) m.client_name).isSome) =
          (fun m : ClientMsgCand => (get_client_by_name db m.client_name).isSome) :=
        funext fun m => by rw [get_client_by_name_congr db _ hq]
      rw [h1]
      refine ⟨i1.trans hq, i2, i3, i4, ?_⟩
      rw [i5, hpred, List.countP_cons]
      have hlen : ((queue_client_message db c.id cm.message).1).client_messages.length =
          db.client_messages.length + 1 := by
        simp [queue_client_message]
      rw [hlen]
      simp [hl]
      omega

theorem applyServices_spec : ∀ (l : List ServiceCand) (env : Env) (db : DB),
    (applyServices env db l).clients = db.clients ∧
    (applyServices env db l).proposals = db.proposals ∧
    (applyServices env db l).client_messages = db.client_messages ∧
    (applyServices env db l).services.length =
      db.services.length +
        l.countP (fun svc => (get_client_by_name db svc.client_name).isSome) := by
  intro l
  induction l with
  | nil => intro env db; exact ⟨rfl, rfl, rfl, by simp [applyServices]⟩
  | cons svc l ih =>
    intro env db
    cases hl : get_client_by_name db svc.client_name with
    | none =>
      have h1 : applyServices env db (svc :: l) = applyServices env db l := by
        simp [applyServices, List.foldl_cons, hl]
      obtain ⟨i1, i2, i3, i4⟩ := ih env db
      rw [h1]
      refine ⟨i1, i2, i3, ?_⟩
      rw [i4, List.countP_cons]
      simp [hl]
    | some c =>
      have h1 : applyServices env db (svc :: l) =
          applyServices env (set_price (add_service env db c.id svc.description svc.price
            none none none).1 svc.description svc.price none none) l := by
        simp [applyServices, List.foldl_cons, hl]
      obtain ⟨f1, f2, f3, f4⟩ := set_price_frame (add_service env db c.id svc.description
        svc.price none none none).1 svc.description svc.price none none
      obtain ⟨i1, i2, i3, i4⟩ := ih env (set_price (add_service env db c.id svc.description
        svc.price none none none).1 svc.description svc.price none none)
      have hcl : (set_price (add_service env db c.id svc.description svc.price none none
          none).1 svc.description svc.price none none).clients = db.clients := f1
      have hpred : (fun m : ServiceCand =>
          (get_client_by_name (set_price (add_service env db c.id svc.description svc.price
            none none none).1 svc.description svc.price none none) m.client_name).isSome) =
          (fun m : ServiceCand => (get_client_by_name db m.client_name).isSome) :=
        funext fun m => by rw [get_client_by_name_congr db _ hcl]
      have hlen : (set_price (add_service env db c.id svc.description svc.price none none
          none).1 svc.description svc.price none none).services.length =
          db.services.length + 1 := by
        rw [f2]
        simp [add_service]
      rw [h1]
      refine ⟨i1.trans hcl, i2.trans f3, i3.trans f4, ?_⟩
      rw [i4, hpred, hlen, List.countP_cons]
      simp [hl]
      omega

theorem applyProposals_spec : ∀ (l : List ProposalCand) (env : Env) (db : DB),
    (applyProposals env db l).clients = db.clients ∧
    (applyProposals env db l).services = db.services ∧
    (applyProposals env db l).price_book = db.price_book ∧
    (applyProposals env db l).client_messages = db.client_messages ∧
    (applyProposals env db l).proposals.length =
      db.proposals.length +
        l.countP (fun p => (get_client_by_name db p.client_name).isSome) := by
  intro l
  induction l with
  | nil => intro env db; exact ⟨rfl, rfl, rfl, rfl, by simp [applyProposals]⟩
  | cons p l ih =>
    intro env db
    cases hl : get_client_by_name db p.client_name with
    | none =>
      have h1 : applyProposals env db (p :: l) = applyProposals env db l := by
        simp [applyProposals, List.foldl_cons, hl]
      obtain ⟨i1, i2, i3, i4, i5⟩ := ih env db
      rw [h1]
      refine ⟨i1, i2, i3, i4, ?_⟩
      rw [i5, List.countP_cons]
      simp [hl]
    | some c =>
      have h1 : applyProposals env db (p :: l) =
          applyProposals env ((create_proposal env db c.id p.services p.total p.notes).1) l := by
        simp [applyProposals, List.foldl_cons, hl]
      obtain ⟨i1, i2, i3, i4, i5⟩ := ih env ((create_proposal env db c.id p.services p.total
        p.notes).1)
      have hcl : ((create_proposal env db c.id p.services p.total p.notes).1).clients =
          db.clients := rfl
      have hpred : (fun m : ProposalCand =>
          (get_client_by_name ((create_proposal env db c.id p.services p.total p.notes).1)
            m.client_name).isSome) =
          (fun m : ProposalCand => (get_client_by_name db m.client_name).isSome) :=
        funext fun m => by rw [get_client_by_name_congr db _ hcl]
      have hlen : ((create_proposal env db c.id p.services p.total p.notes).1).proposals.length =
          db.proposals.length + 1 := by
        simp [create_proposal]
      rw [h1]
      refine ⟨i1.trans hcl, i2, i3, i4, ?_⟩
      rw [i5, hpred, hlen, List.countP_cons]
      simp [hl]
      omega

/-- Claim C2 (amended): re-processing the same reply repeats the service,
message and proposal effects (the same number of service rows, outgoing
messages and proposals is created again, there being no idempotency key),
but creates no duplicate clients: the second pass's client set equals the
first pass's, since every new-client candidate now resolves by name. -/
theorem c2_reprocess_repeats_non_client_effects :
    ∀ (env : Env) (db : DB) (t : Str) (r : ExtractionResult),
      process_response t = .ok r →
      (reconcile env (reconcile env db r) r).clients = (reconcile env db r).clients ∧
      ∃ cs cm cp : Nat,
        (reconcile env db r).services.length = db.services.length + cs ∧
        (reconcile env (reconcile env db r) r).services.length =
          (reconcile env db r).services.length + cs ∧
        (reconcile env db r).client_messages.length = db.client_messages.length + cm ∧
        (reconcile env (reconcile env db r) r).client_messages.length =
          (reconcile env db r).client_messages.length + cm ∧
        (reconcile env db r).proposals.length = db.proposals.length + cp ∧
        (reconcile env (reconcile env db r) r).proposals.length =
          (reconcile env db r).proposals.length + cp := by
  intro env db t r _
  have hd1 : reconcile env db r =
      applyProposals env (applyServices env (applyClientMessages
        (applyNewClients db r.new_clients) r.client_messages) r.services) r.proposals := rfl
  obtain ⟨sufA, hAshape⟩ := applyNewClients_shape r.new_clients db
  obtain ⟨b1, b2, b3, b4, b5⟩ := applyClientMessages_spec r.client_messages
    (applyNewClients db r.new_clients)
  obtain ⟨s1, s2, s3, s4⟩ := applyServices_spec r.services env
    (applyClientMessages (applyNewClients db r.new_clients) r.client_messages)
  obtain ⟨p1, p2, p3, p4, p5⟩ := applyProposals_spec r.proposals env
    (applyServices env (applyClientMessages (applyNewClients db r.new_clients)
      r.client_messages) r.services)
  have hAsv : (applyNewClients db r.new_clients).services = db.services := by rw [hAshape]
  have hAcm : (applyNewClients db r.new_clients).client_messages = db.client_messages := by
    rw [hAshape]
  have hApr : (applyNewClients db r.new_clients).proposals = db.proposals := by rw [hAshape]
  have hd1cl : (reconcile env db r).clients = (applyNewClients db r.new_clients).clients := by
    rw [hd1, p1, s1, b1]
  have hpredB : (fun svc : ServiceCand => (get_client_by_name (applyClientMessages
      (applyNewClients db r.new_clients) r.client_messages) svc.client_name).isSome) =
      (fun svc : ServiceCand => (get_client_by_name (applyNewClients db r.new_clients)
        svc.client_name).isSome) :=
    funext fun svc => by rw [get_client_by_name_congr _ _ b1]
  have hpredC : (fun p : ProposalCand => (get_client_by_name (applyServices env
      (applyClientMessages (applyNewClients db r.new_clients) r.client_messages) r.services)
      p.client_name).isSome) =
      (fun p : ProposalCand => (get_client_by_name (applyNewClients db r.new_clients)
        p.client_name).isSome) :=
    funext fun p => by rw [get_client_by_name_congr _ _ (s1.trans b1)]
  have run1sv : (reconcile env db r).services.length = db.services.length +
      r.services.countP (fun svc => (get_client_by_name (applyNewClients db r.new_clients)
        svc.client_name).isSome) := by
    rw [hd1, p2, s4, hpredB, b2, hAsv]
  have run1cm : (reconcile env db r).client_messages.length = db.client_messages.length +
      r.client_messages.countP (fun cm => (get_client_by_name (applyNewClients db
        r.new_clients) cm.client_name).isSome) := by
    rw [hd1, p4, s3, b5, hAcm]
  have run1pr : (reconcile env db r).proposals.length = db.proposals.length +
      r.proposals.countP (fun p => (get_client_by_name (applyNewClients db r.new_clients)
        p.client_name).isSome) := by
    rw [hd1, p5, hpredC, s2, b4, hApr]
  have hres : ∀ nc ∈ r.new_clients,
      (get_client_by_name (reconcile env db r) nc.name).isSome = true := by
    intro nc hnc
    rw [get_client_by_name_congr _ _ hd1cl]
    exact applyNewClients_resolves r.new_clients db nc hnc
  have hnoop : applyNewClients (reconcile env db r) r.new_clients = reconcile env db r :=
    applyNewClients_noop _ _ hres
  have hd2 : reconcile env (reconcile env db r) r =
      applyProposals env (applyServices env (applyClientMessages (reconcile env db r)
        r.client_messages) r.services) r.proposals := by
    show applyProposals env (applyServices env (applyClientMessages
      (applyNewClients (reconcile env db r) r.new_clients) r.client_messages) r.services)
      r.proposals = _
    rw [hnoop]
  obtain ⟨c1, c2, c3, c4, c5⟩ := applyClientMessages_spec r.client_messages (reconcile env db r)
  obtain ⟨t1, t2, t3, t4⟩ := applyServices_spec r.services env
    (applyClientMessages (reconcile env db r) r.client_messages)
  obtain ⟨q1, q2, q3, q4, q5⟩ := applyProposals_spec r.proposals env
    (applyServices env (applyClientMessages (reconcile env db r) r.client_messages) r.services)
  have hpredD : (fun cm : ClientMsgCand => (get_client_by_name (reconcile env db r)
      cm.client_name).isSome) =
      (fun cm : ClientMsgCand => (get_client_by_name (applyNewClients db r.new_clients)
        cm.client_name).isSome) :=
    funext fun m => by rw [get_client_by_name_congr _ _ hd1cl]
  have hpredB2 : (fun svc : ServiceCand => (get_client_by_name (applyClientMessages
      (reconcile env db r) r.client_messages) svc.client_name).isSome) =
      (fun svc : ServiceCand => (get_client_by_name (applyNewClients db r.new_clients)
        svc.client_name).isSome) :=
    funext fun svc => by rw [get_client_by_name_congr _ _ (c1.trans hd1cl)]
  have hpredC2 : (fun p : ProposalCand => (get_client_by_name (applyServices env
      (applyClientMessages (reconcile env db r) r.client_messages) r.services)
      p.client_name).isSome) =
      (fun p : ProposalCand => (get_client_by_name (applyNewClients db r.new_clients)
        p.client_name).isSome) :=
    funext fun p => by rw [get_client_by_name_congr _ _ (t1.trans (c1.trans hd1cl))]
  refine ⟨?_, ?_⟩
  · rw [hd2, q1, t1, c1]
  refine ⟨_, _, _, run1sv, ?_, run1cm, ?_, run1pr, ?_⟩
  · rw [hd2, q2, t4, hpredB2, c2]
  · rw [hd2, q4, t3, c5, hpredD]
  · rw [hd2, q5, hpredC2, t2, c4]

theorem c2_amended_witness :
    process_response tA = .ok rA ∧
    (reconcile envT (reconcile envT emptyDB rA) rA).clients =
      (reconcile envT emptyDB rA).clients :=
  ⟨by decide, (c2_reprocess_repeats_non_client_effects envT emptyDB tA rA (by decide)).1⟩

theorem c10_witness :
    (∃ s ∈ dbSess.chat_sessions, s.id = 2) ∧
    (∀ s ∈ dbSess.chat_sessions, s.updated_at < dbSess.now) ∧
    (get_or_create_default_session
      ((add_message dbSess (str "jaime") (str "hola") (some 2)).1)).2 = 2 :=
  ⟨by decide, by decide,
    (c10_assistant_append_fallback dbSess 2 (str "hola") (str "listo")
      (by decide) (by decide)).1⟩
